import Mathlib
/-!
Verification of the ARI-Dashboard inventory engine.

This file is a shallow embedding of the TypeScript source of the repository:
the Firestore-backed item store (`itemsRepository`), the checkout/return
transaction functions (`checkoutItem`, `returnItem`), the sequential id
allocator (`getNextItemCount`, `buildItemDocId`), the location codec
(`parseLocation`, `buildLocationArray`, `extractLocationNumber`) and the CSV
CSV import pipeline (`validateRow`, `handleImportAll`).

Modelling conventions:
* JavaScript numbers are modelled as exact rationals (`ℚ`); all arithmetic the
  claims touch (clamping at 0, adding/subtracting quantities, sign tests) is
  exact on the reals, so no floating-point rounding is observable.  `NaN` is
  modelled explicitly (`JsNum.nan`) where the dynamic import-all path can
  produce it.  The sequence counter only ever holds integers, so it is `ℤ`.
* Firestore documents are modelled as association lists keyed by document id;
  a transaction is a pure function from the database state to either an error
  (in which case nothing is written) or the committed new state.
* Firestore `serverTimestamp()` / `new Date()` are modelled as an abstract
  `now : ℕ` argument.
* JS `String.prototype.trim` is modelled by `jsTrim` (drop whitespace on both
  ends) and the regexes of the source are modelled by explicit scanning
  functions with the same leftmost/greedy semantics.
-/

namespace ARI
/-! ## Generic association-list store (Firestore collections by doc id) -/

def alookup {κ α : Type} [DecidableEq κ] (l : List (κ × α)) (k : κ) : Option α :=
  match l with
  | [] => none
  | (k0, v0) :: t => if k0 = k then some v0 else alookup t k
def aset {κ α : Type} [DecidableEq κ] (l : List (κ × α)) (k : κ) (v : α) : List (κ × α) :=
  match l with
  | [] => [(k, v)]
  | (k0, v0) :: t => if k0 = k then (k, v) :: t else (k0, v0) :: aset t k v
def adel {κ α : Type} [DecidableEq κ] (l : List (κ × α)) (k : κ) : List (κ × α) :=
  match l with
  | [] => []
  | (k0, v0) :: t => if k0 = k then adel t k else (k0, v0) :: adel t k
/-! ## JavaScript string primitives -/

/-- Model of JS `String.prototype.trim()`: remove whitespace from both ends. -/
def jsTrim (s : String) : String :=
  String.mk (((s.data.dropWhile Char.isWhitespace).reverse.dropWhile Char.isWhitespace).reverse)
/-- Characters kept by `replace(/[^a-z0-9]/g, '')`. -/
def keepAlnum (c : Char) : Bool :=
  (('a' ≤ c ∧ c ≤ 'z') ∨ ('0' ≤ c ∧ c ≤ '9') : Prop)
/-! ## Location codec (src/utils/helpers.ts) -/

/-- Model of `extractLocationNumber(str)`: trailing-digit run (regex `(\d+)$`), or the
original string if there is none. -/
def extractLocationNumber (str : String) : String :=
  if ((str.data.reverse.takeWhile Char.isDigit).reverse).isEmpty then str
  else String.mk ((str.data.reverse.takeWhile Char.isDigit).reverse)
/-- The decoded location triple: the source returns the three coordinates as
strings (e.g. `{cabinet: "3", row: "2", col: "4"}`). -/
structure ParsedLoc where
  cabinet : String
  row : String
  col : String
deriving DecidableEq, Repr
/-- Input type of `parseLocation`: either a plain string (legacy) or an array. -/
inductive LocationData where
  | str (s : String)
  | arr (l : List String)
deriving DecidableEq
/-- Case-insensitive literal match: consume `pat` from the front of `l`,
returning the rest. -/
def matchCIAux : List Char → List Char → Option (List Char)
  | [], l => some l
  | _ :: _, [] => none
  | p :: ps, c :: cs => if c.toLower = p.toLower then matchCIAux ps cs else none
/-- Scan for the leftmost position where `tryAt` matches (regex search). -/
def scanFirst {α : Type} (tryAt : List Char → Option α) : List Char → Option α
  | [] => tryAt []
  | c :: rest =>
    match tryAt (c :: rest) with
    | some x => some x
    | none => scanFirst tryAt rest
/-- Take a nonempty run of digits (regex `\d+`), returning it and the rest. -/
def takeDigits1 (l : List Char) : Option (String × List Char) :=
  let ds := l.takeWhile Char.isDigit
  if ds.isEmpty then none else some (String.mk ds, l.drop ds.length)
/-- One attempt of `/cab(\d+)-row(\d+)-col(\d+)/i` anchored at the front. -/
def tryCabRowColAt (l : List Char) : Option (String × String × String) :=
  (matchCIAux "cab".data l).bind fun r1 =>
  (takeDigits1 r1).bind fun (c, r2) =>
  (matchCIAux "-row".data r2).bind fun r3 =>
  (takeDigits1 r3).bind fun (r, r4) =>
  (matchCIAux "-col".data r4).bind fun r5 =>
  (takeDigits1 r5).map fun (k, _) => (c, r, k)
/-- One attempt of `/TAG(\d+)/i` anchored at the front. -/
def tryTagAt (tag : String) (l : List Char) : Option String :=
  (matchCIAux tag.data l).bind fun rest =>
  (takeDigits1 rest).map fun (ds, _) => ds
/-- Search `/TAG(\d+)/i` anywhere in `s` (leftmost match). -/
def findTagNumber (tag : String) (s : String) : Option String :=
  scanFirst (tryTagAt tag) s.data
/-- The legacy single-string branch of `parseLocation`. -/
def parseLocationStr (str : String) : Option ParsedLoc :=
  if str = "" then none
  else
    match scanFirst tryCabRowColAt str.data with
    | some (c, r, k) => some { cabinet := c, row := r, col := k }
    | none =>
      let cab := findTagNumber "cab" str
      let row := findTagNumber "row" str
      let col := findTagNumber "col" str
      if cab.isSome || row.isSome || col.isSome then
        some { cabinet := cab.getD "-", row := row.getD "-", col := col.getD "-" }
      else none
/-- Model of `parseLocation(locationData)` from src/utils/helpers.ts. -/
def parseLocation (locationData : LocationData) : Option ParsedLoc :=
  match locationData with
  | .arr [a, b, c] =>
    -- new format: array of exactly 3 strings
    some { cabinet := extractLocationNumber a
           row := extractLocationNumber b
           col := extractLocationNumber c }
  | .arr [] => none          -- `locationData[0]` is undefined, hence falsy
  | .arr (a :: _) => parseLocationStr a
  | .str s => parseLocationStr s
/-- Model of `buildLocationArray(cabinet, row, col)`: no validation, just formatting. -/
def buildLocationArray (cabinet row col : ℕ) : List String :=
  ["cab" ++ toString cabinet, "row" ++ toString row, "col" ++ toString col]
/-! ## JavaScript number parsing (`parseFloat`, `ToNumber`)

JS numbers are modelled as exact rationals: every operation the claims touch
(sign tests, clamping at 0, adding and subtracting quantities) is exact, so
double rounding is never observable.  `NaN` is modelled by `Option`/`JsNum`;
the `Infinity`/hex corner of the JS grammar is outside the model. -/

def digitsToNat (ds : List Char) : ℕ :=
  ds.foldl (fun acc c => 10 * acc + (c.toNat - Char.toNat '0')) 0
def splitDigits (l : List Char) : List Char × List Char :=
  (l.takeWhile Char.isDigit, l.dropWhile Char.isDigit)
def parseSignChars : List Char → Bool × List Char
  | '-' :: rest => (true, rest)
  | '+' :: rest => (false, rest)
  | l => (false, l)
def parseExponentChars (l : List Char) : ℤ × List Char :=
  match l with
  | c :: rest =>
    if c = 'e' ∨ c = 'E' then
      let p := parseSignChars rest
      let d := splitDigits p.2
      if d.1.isEmpty then (0, l)
      else ((if p.1 then -(digitsToNat d.1 : ℤ) else (digitsToNat d.1 : ℤ)), d.2)
    else (0, l)
  | [] => (0, [])
/-- The rational value of a decimal literal with sign `neg`, integer part
`ip`, fractional part `fp` over `flen` digits, and decimal exponent `ex`. -/
def decValue (neg : Bool) (ip fp : ℕ) (flen : ℕ) (ex : ℤ) : ℚ :=
  let mag : ℚ := ((ip : ℚ) + (fp : ℚ) / ((10 : ℚ) ^ flen)) * (10 : ℚ) ^ ex
  if neg then -mag else mag
/-- JS `parseFloat` applied to a character list with no leading whitespace:
consume the longest decimal literal `[+-]?(\d+(\.\d*)?|\.\d+)([eE][+-]?\d+)?`
at the front; `none` is `NaN`. -/
def parseFloatChars (l : List Char) : Option (ℚ × List Char) :=
  let s := parseSignChars l
  let ipart := splitDigits s.2
  let fres : List Char × List Char :=
    match ipart.2 with
    | '.' :: rest => splitDigits rest
    | _ => ([], ipart.2)
  if ipart.1.isEmpty ∧ fres.1.isEmpty then none
  else
    let e := parseExponentChars fres.2
    some (decValue s.1 (digitsToNat ipart.1) (digitsToNat fres.1) fres.1.length e.1, e.2)
/-- Model of `parseFloat(s)` for a string that the caller has already trimmed. -/
def parseFloatString (s : String) : Option ℚ :=
  (parseFloatChars s.data).map Prod.fst
/-- JS `ToNumber` applied to an already-trimmed nonempty string: the whole
string must be a numeric literal, otherwise `NaN` (`none`). -/
def parseFullNumber (s : String) : Option ℚ :=
  match parseFloatChars s.data with
  | some (q, []) => some q
  | _ => none
/-! ## Data model (src/types/item.ts) and database state -/

/-- A persisted item document (the `Item` interface minus its `id`). -/
structure ItemDoc where
  name : String
  quantity : Option ℚ
  on_hand : Option ℚ
  count_date : String
  count_person : String
  delivery_date : String
  location : List (List String)
  supplier : String
  supplier_url : Option String
  retail_price : Option ℚ
  description : String
deriving DecidableEq
/-- The `ItemDraft` type: what callers hand to `createItem`.  Fields that the code
defends with `?? / || ''` are `Option`s so that "missing" is representable. -/
structure ItemDraft where
  name : String
  quantity : Option ℚ := none
  on_hand : Option ℚ := none
  count_date : Option String := none
  count_person : Option String := none
  delivery_date : Option String := none
  location : Option (List (List String)) := none
  supplier : Option String := none
  supplier_url : Option String := none
  retail_price : Option ℚ := none
  description : Option String := none
deriving DecidableEq
/-- The `ItemPatch` type, `Partial<Omit<Item, 'id'>>`: `none` = key absent from patch. -/
structure ItemPatch where
  name : Option String := none
  quantity : Option ℚ := none
  on_hand : Option ℚ := none
  count_date : Option String := none
  count_person : Option String := none
  delivery_date : Option String := none
  location : Option (List (List String)) := none
  supplier : Option String := none
  supplier_url : Option String := none
  retail_price : Option ℚ := none
  description : Option String := none
deriving DecidableEq
/-- A `users/{uid}/checkedOutItems/{itemId}` ledger document. -/
structure LedgerEntry where
  itemId : String
  qty : ℚ
  updatedAt : ℕ
deriving DecidableEq
/-- The transactional store: the `items` collection, the per-user checkout
ledgers keyed by `(uid, itemId)`, and the `metadata/count` counter field
(`none` when the document or field is absent). -/
structure DBState where
  items : List (String × ItemDoc)
  ledgers : List ((String × String) × LedgerEntry)
  counter : Option ℤ
deriving DecidableEq
/-- The errors thrown by the repository and transaction functions, one
constructor per `throw new Error(...)` site. -/
inductive RepoError where
  | validation
  | itemNotFound
  | qtyNotPositive
  | insufficientStock (available : ℚ)
  | noActiveCheckout
  | excessReturn (checkedOut : ℚ)
deriving DecidableEq
def exceptIsOk {ε α : Type} : Except ε α → Bool
  | .ok _ => true
  | .error _ => false
instance decEqExcept {ε α : Type} [DecidableEq ε] [DecidableEq α] :
    DecidableEq (Except ε α) := fun x y =>
  match x, y with
  | .ok a, .ok b =>
    decidable_of_iff (a = b) ⟨fun h => by rw [h], fun h => Except.ok.inj h⟩
  | .ok _, .error _ => isFalse (fun h => by cases h)
  | .error _, .ok _ => isFalse (fun h => by cases h)
  | .error e, .error f =>
    decidable_of_iff (e = f) ⟨fun h => by rw [h], fun h => Except.error.inj h⟩
/-! ## Sequential id allocator (src/services/itemsRepository.ts) -/

/-- Model of `getNextItemCount()`: read `metadata/count` (0 when absent), persist
`current + 1`, return it.  The whole read-modify-write is one transaction. -/
def getNextItemCount (st : DBState) : ℤ × DBState :=
  let current : ℤ := st.counter.getD 0
  let next := current + 1
  (next, { st with counter := some next })
/-- Model of `buildItemDocId(name, count)`: lower-case, strip `[^a-z0-9]`, append the
count.  e.g. `"Red Valve" + 42 => "redvalve42"`. -/
def buildItemDocId (name : String) (count : ℤ) : String :=
  String.mk ((name.data.map Char.toLower).filter keepAlnum) ++ toString count
/-! ## Item store (FirestoreItemsRepository) -/

/-- The materialized `Item` returned by `createItem` (`{ id, ...draft }`). -/
structure ItemRec where
  id : String
  doc : ItemDoc
deriving DecidableEq
/-- The `validatedDraft` object built inside `createItem`. -/
def validatedDraftDoc (itemDraft : ItemDraft) : ItemDoc :=
  { name := jsTrim itemDraft.name
    on_hand := itemDraft.on_hand.map (fun q => max 0 q)
    quantity := itemDraft.quantity.map (fun q => max 0 q)
    retail_price := itemDraft.retail_price.map (fun q => max 0 q)
    location := itemDraft.location.getD []
    count_date := itemDraft.count_date.getD ""
    count_person := itemDraft.count_person.getD ""
    delivery_date := itemDraft.delivery_date.getD ""
    supplier := itemDraft.supplier.getD ""
    description := itemDraft.description.getD ""
    supplier_url := itemDraft.supplier_url }
/-- Model of `createItem(itemDraft)`: validate the name, clamp/normalize, draw a
suffix from the counter, build the doc id, persist, return the new item. -/
def createItem (itemDraft : ItemDraft) (st : DBState) : Except RepoError (ItemRec × DBState) :=
  if jsTrim itemDraft.name = "" then .error .validation
  else
    let validatedDraft := validatedDraftDoc itemDraft
    let res := getNextItemCount st
    let docId := buildItemDocId validatedDraft.name res.1
    .ok ({ id := docId, doc := validatedDraft },
         { res.2 with items := aset res.2.items docId validatedDraft })
/-- The guard `patch.name !== undefined && !patch.name.trim()`. -/
def patchNameBlank (patch : ItemPatch) : Bool :=
  match patch.name with
  | some n => jsTrim n = ""
  | none => false
/-- The `validatedPatch` merged over an existing document: patched numeric
fields are clamped with `Math.max(0, ·)`, other patched fields replace. -/
def applyPatch (doc : ItemDoc) (patch : ItemPatch) : ItemDoc :=
  { name := patch.name.getD doc.name
    on_hand := match patch.on_hand with | some v => some (max 0 v) | none => doc.on_hand
    quantity := match patch.quantity with | some v => some (max 0 v) | none => doc.quantity
    retail_price := match patch.retail_price with | some v => some (max 0 v) | none => doc.retail_price
    count_date := patch.count_date.getD doc.count_date
    count_person := patch.count_person.getD doc.count_person
    delivery_date := patch.delivery_date.getD doc.delivery_date
    location := patch.location.getD doc.location
    supplier := patch.supplier.getD doc.supplier
    supplier_url := match patch.supplier_url with | some v => some v | none => doc.supplier_url
    description := patch.description.getD doc.description }
/-- Model of `updateItem(id, patch)`: reject a blank patched name; `updateDoc` fails
when the document does not exist. -/
def updateItem (id : String) (patch : ItemPatch) (st : DBState) : Except RepoError DBState :=
  if patchNameBlank patch then .error .validation
  else
    match alookup st.items id with
    | none => .error .itemNotFound
    | some doc => .ok { st with items := aset st.items id (applyPatch doc patch) }
/-- Model of `deleteItem(id)`: unconditional, no cascade to ledgers. -/
def deleteItem (id : String) (st : DBState) : DBState :=
  { st with items := adel st.items id }
/-! ## Checkout / return transactions (checkout.ts, returns.ts) -/

/-- Model of `checkoutItem(uid, itemId, qty)`: one transaction over the item document
and the user's ledger document.  A thrown error aborts the transaction, so an
error result carries no state. -/
def checkoutItem (uid itemId : String) (qty : ℚ) (now : ℕ) (st : DBState) :
    Except RepoError DBState :=
  if qty ≤ 0 then .error .qtyNotPositive
  else
    match alookup st.items itemId with
    | none => .error .itemNotFound
    | some itemDoc =>
      -- `const currentOnHand = itemData.on_hand ?? 0`
      let currentOnHand := itemDoc.on_hand.getD 0
      if currentOnHand < qty then .error (.insufficientStock currentOnHand)
      else
        let ledgers :=
          match alookup st.ledgers (uid, itemId) with
          | some entry =>
            aset st.ledgers (uid, itemId) { entry with qty := entry.qty + qty, updatedAt := now }
          | none =>
            aset st.ledgers (uid, itemId) { itemId := itemId, qty := qty, updatedAt := now }
        let items := aset st.items itemId { itemDoc with on_hand := some (currentOnHand - qty) }
        .ok { st with items := items, ledgers := ledgers }
/-- Model of `returnItem(uid, itemId, qty)`: the mirror transaction.  The final
`transaction.update(itemRef, ...)` fails at commit when the item document no
longer exists, aborting the whole transaction. -/
def returnItem (uid itemId : String) (qty : ℚ) (now : ℕ) (st : DBState) :
    Except RepoError DBState :=
  if qty ≤ 0 then .error .qtyNotPositive
  else
    match alookup st.ledgers (uid, itemId) with
    | none => .error .noActiveCheckout
    | some entry =>
      -- `const currentQty = checkedOutData.qty || 0` (identity on a number)
      let currentQty := entry.qty
      if currentQty < qty then .error (.excessReturn currentQty)
      else
        match alookup st.items itemId with
        | none => .error .itemNotFound
        | some itemDoc =>
          let ledgers :=
            if qty = currentQty then adel st.ledgers (uid, itemId)
            else aset st.ledgers (uid, itemId)
              { entry with qty := entry.qty - qty, updatedAt := now }
          let items := aset st.items itemId
            { itemDoc with on_hand := some (itemDoc.on_hand.getD 0 + qty) }
          .ok { st with items := items, ledgers := ledgers }
/-! ## Operation sequences -/

/-- The engine operations a client can commit against the store. -/
inductive Op where
  | checkout (uid itemId : String) (qty : ℚ) (now : ℕ)
  | ret (uid itemId : String) (qty : ℚ) (now : ℕ)
  | create (draft : ItemDraft)
  | update (id : String) (patch : ItemPatch)
/-- Apply one operation: a failed transaction commits nothing, so the state
is unchanged on error. -/
def applyOp (st : DBState) (op : Op) : DBState :=
  match op with
  | .checkout uid itemId qty now =>
    match checkoutItem uid itemId qty now st with
    | .ok st2 => st2
    | .error _ => st
  | .ret uid itemId qty now =>
    match returnItem uid itemId qty now st with
    | .ok st2 => st2
    | .error _ => st
  | .create draft =>
    match createItem draft st with
    | .ok r => r.2
    | .error _ => st
  | .update id patch =>
    match updateItem id patch st with
    | .ok st2 => st2
    | .error _ => st
/-- Run a whole sequence of operations. -/
def runOps (st : DBState) (ops : List Op) : DBState :=
  ops.foldl applyOp st
/-! ## The stock invariant -/

/-- An `on_hand` field is acceptable when, if present, it is nonnegative. -/
def onHandOk (o : Option ℚ) : Prop :=
  ∀ q, o = some q → 0 ≤ q
instance decOnHandOk : DecidablePred onHandOk := fun o =>
  match o with
  | none => isTrue (fun _ h => nomatch h)
  | some q =>
    decidable_of_iff (0 ≤ q)
      ⟨fun h q2 h2 => by cases h2; exact h, fun h => h q rfl⟩
/-- The invariant of C1: every stored item document has a nonnegative
`on_hand` whenever the field is present. -/
def InvNonNeg (st : DBState) : Prop :=
  ∀ p ∈ st.items, onHandOk p.2.on_hand
instance decInvNonNeg (st : DBState) : Decidable (InvNonNeg st) :=
  List.decidableBAll _ _
/-! ## Concrete example states used by the witnesses -/

def dbEmpty : DBState := { items := [], ledgers := [], counter := none }
def itemDocEx (h : Option ℚ) : ItemDoc :=
  { name := "Widget", quantity := none, on_hand := h, count_date := "",
    count_person := "", delivery_date := "", location := [], supplier := "",
    supplier_url := none, retail_price := none, description := "" }
def stC2 : DBState :=
  { items := [("widget1", itemDocEx (some 10))], ledgers := [], counter := some 1 }
def stC3 : DBState :=
  { items := [("widget1", itemDocEx (some 3))]
    ledgers := [(("u1", "widget1"), { itemId := "widget1", qty := 5, updatedAt := 0 })]
    counter := none }
def stC10 : DBState :=
  { items := [("widget1", itemDocEx none)], ledgers := [], counter := none }
def opsC1 : List Op :=
  [ .create { name := "Red Valve", on_hand := some 10 },
    .checkout "u1" "redvalve1" 4 0,
    .ret "u1" "redvalve1" 4 1,
    .update "redvalve1" { on_hand := some (-2) } ]
def draftC6 : ItemDraft :=
  { name := " Red Valve ", on_hand := some (-3), quantity := some 7,
    retail_price := some 13, supplier := some "Acme" }
def stC6 : DBState := { items := [], ledgers := [], counter := some 41 }
def docC6 : ItemDoc :=
  { name := "Red Valve", quantity := some 7, on_hand := some 0, count_date := "",
    count_person := "", delivery_date := "", location := [], supplier := "Acme",
    supplier_url := none, retail_price := some 13, description := "" }
def recC6 : ItemRec := { id := "redvalve42", doc := docC6 }
def stC6b : DBState :=
  { items := [("redvalve42", docC6)], ledgers := [], counter := some 42 }
/-! ## CSV import pipeline (src/components/CSVImportModal.tsx) -/

/-- A raw CSV row as `parseCSV` builds it: every header that is present maps
to a (possibly empty) string; `none` means the column is absent entirely. -/
structure CsvRow where
  name : Option String := none
  description : Option String := none
  supplier : Option String := none
  location : Option String := none
  count_date : Option String := none
  count_person : Option String := none
  delivery_date : Option String := none
  on_hand : Option String := none
  quantity : Option String := none
  retail_price : Option String := none
deriving DecidableEq
/-- JS truthiness of an optional string cell. -/
def strTruthy (v : Option String) : Bool :=
  match v with
  | none => false
  | some s => s ≠ ""
/-- The expression `v?.trim() || ''`. -/
def optTrimOrEmpty (v : Option String) : String :=
  match v with
  | none => ""
  | some s => jsTrim s
/-- A separator of `/[-,]/`. -/
def matchSep : List Char → Option (List Char)
  | c :: rest => if c = '-' ∨ c = ',' then some rest else none
  | [] => none
/-- One attempt of `/cab(\d+)[-,]row(\d+)[-,]col(\d+)/i` anchored at the
front (the CSV variant also accepts commas between the segments). -/
def tryCsvLocAt (l : List Char) : Option (String × String × String) :=
  (matchCIAux "cab".data l).bind fun r1 =>
  (takeDigits1 r1).bind fun p1 =>
  (matchSep p1.2).bind fun r2 =>
  (matchCIAux "row".data r2).bind fun r3 =>
  (takeDigits1 r3).bind fun p2 =>
  (matchSep p2.2).bind fun r4 =>
  (matchCIAux "col".data r4).bind fun r5 =>
  (takeDigits1 r5).map fun p3 => (p1.1, p2.1, p3.1)
/-- At least one separator of `/[,\s]+/`. -/
def takeSeps1 (l : List Char) : Option (List Char) :=
  let s := l.takeWhile fun c => c = ',' ∨ c.isWhitespace
  if s.isEmpty then none else some (l.drop s.length)
/-- Full match of `/^(\d+)[,\s]+(\d+)[,\s]+(\d+)$/` on a trimmed string. -/
def matchTripleNums (l : List Char) : Option (String × String × String) :=
  (takeDigits1 l).bind fun p1 =>
  (takeSeps1 p1.2).bind fun r1 =>
  (takeDigits1 r1).bind fun p2 =>
  (takeSeps1 p2.2).bind fun r2 =>
  (takeDigits1 r2).bind fun p3 =>
  if p3.2.isEmpty then some (p1.1, p2.1, p3.1) else none
/-- Model of `parseLocationFromCSV(locStr)`: `["cabN","rowM","colP"]` or `null`. -/
def parseLocationFromCSV (locStr : String) : Option (List String) :=
  match scanFirst tryCsvLocAt locStr.data with
  | some (c, r, k) => some ["cab" ++ c, "row" ++ r, "col" ++ k]
  | none =>
    match matchTripleNums (jsTrim locStr).data with
    | some (a, b, c) => some ["cab" ++ a, "row" ++ b, "col" ++ c]
    | none => none
/-- The `location` cell: split on `;`, trim, drop blanks, parse each
expression, silently dropping the unparseable ones. -/
def parseLocationsCell (v : Option String) : List (List String) :=
  match v with
  | none => []
  | some s =>
    if s = "" then []
    else (((s.split fun c => c = ';').map jsTrim).filter fun t => t ≠ "").filterMap
      parseLocationFromCSV
/-- Model of `parseNumber(value)`: absent/empty cells are `undefined`; otherwise
`parseFloat` of the trimmed string, with `NaN` mapped to `undefined`. -/
def parseNumber (value : Option String) : Option ℚ :=
  match value with
  | none => none
  | some s => if s = "" then none else parseFloatString (jsTrim s)
/-- The test `parsed === undefined || parsed < 0`. -/
def negOrNone (parsed : Option ℚ) : Bool :=
  match parsed with
  | none => true
  | some q => q < 0
/-- The guard `!row.name || !row.name.trim()`. -/
def nameErr (row : CsvRow) : Bool :=
  !strTruthy row.name || jsTrim (row.name.getD "") = ""
/-- The guard `row.f && row.f.toString().trim() !== '' && (f === undefined || f < 0)`. -/
def numErr (v : Option String) : Bool :=
  strTruthy v && jsTrim (v.getD "") ≠ "" && negOrNone (parseNumber v)
/-- The draft a valid row turns into. -/
structure ParsedRow where
  draft : ItemDraft
  locationArr : List (List String)
deriving DecidableEq
/-- The result record of `validateRow`. -/
structure RowValidation where
  valid : Bool
  errors : List String
  parsed : Option ParsedRow
deriving DecidableEq
/-- Model of `validateRow(row)` from CSVImportModal.tsx. -/
def validateRow (row : CsvRow) : RowValidation :=
  let locationArrays := parseLocationsCell row.location
  let on_hand := parseNumber row.on_hand
  let quantity := parseNumber row.quantity
  let retail_price := parseNumber row.retail_price
  let draft : ItemDraft :=
    { name := optTrimOrEmpty row.name
      description := some (optTrimOrEmpty row.description)
      supplier := some (optTrimOrEmpty row.supplier)
      location := some locationArrays
      count_date := some (optTrimOrEmpty row.count_date)
      count_person := some (optTrimOrEmpty row.count_person)
      delivery_date := some (optTrimOrEmpty row.delivery_date)
      on_hand := on_hand
      quantity := quantity
      retail_price := retail_price
      supplier_url := none }
  let errors : List String :=
    (if nameErr row then ["Name is required"] else [])
      ++ (if numErr row.on_hand then ["on_hand must be a positive number"] else [])
      ++ (if numErr row.quantity then ["quantity must be a positive number"] else [])
      ++ (if numErr row.retail_price then ["retail_price must be a positive number"] else [])
  { valid := errors.isEmpty
    errors := errors
    parsed := if errors.isEmpty then some { draft := draft, locationArr := locationArrays }
              else none }
/-- The valid/error bucket sizes that `parseCSV`'s loop accumulates. -/
def classifyRows (rows : List CsvRow) : ℕ × ℕ :=
  rows.foldl
    (fun acc row =>
      if (validateRow row).valid then (acc.1 + 1, acc.2) else (acc.1, acc.2 + 1))
    (0, 0)
/-- The claim's reading of "present": a nonempty, non-whitespace cell. -/
def numPresent (v : Option String) : Prop :=
  strTruthy v = true ∧ jsTrim (v.getD "") ≠ ""
/-- The claim's reading of "parses to a non-negative number". -/
def parsesNonneg (v : Option String) : Prop :=
  match parseNumber v with
  | some q => 0 ≤ q
  | none => False
/-! ### Concrete rows for the import-classification scenario -/

def rowMissingName : CsvRow :=
  { name := some "", description := some "", supplier := some "", location := some "",
    count_date := some "", count_person := some "", delivery_date := some "",
    on_hand := some "", quantity := some "", retail_price := some "" }
def rowNegOnHand : CsvRow := { rowMissingName with name := some "Widget", on_hand := some "-1" }
def rowFullyValid : CsvRow := { rowMissingName with name := some "Valve", on_hand := some "3" }
/-! ## The "import all" coercion (handleImportAll) -/

/-- The draft built by `handleImportAll` for an error-bucket row: the text
fields default via `||`, the location is reset to `[]`, but the numeric
fields are passed through as the raw CSV strings (`err.data.on_hand` etc.),
not as parsed numbers. -/
structure RawDraft where
  name : String
  description : String
  supplier : String
  location : List (List String)
  count_date : String
  count_person : String
  delivery_date : String
  on_hand : Option String
  quantity : Option String
  retail_price : Option String
deriving DecidableEq
/-- The expression `x || d` on an optional string. -/
def jsOrString (o : Option String) (d : String) : String :=
  match o with
  | some s => if s = "" then d else s
  | none => d
/-- The element-wise body of `errorRows.map(err => ({draft: {...}, ...}))`. -/
def importAllDraft (r : CsvRow) : RawDraft :=
  { name := jsOrString r.name "Untitled Item"
    description := jsOrString r.description ""
    supplier := jsOrString r.supplier ""
    location := []
    count_date := jsOrString r.count_date ""
    count_person := jsOrString r.count_person ""
    delivery_date := jsOrString r.delivery_date ""
    on_hand := r.on_hand
    quantity := r.quantity
    retail_price := r.retail_price }
/-- A JS number: a rational or `NaN`. -/
inductive JsNum where
  | nan
  | val (q : ℚ)
deriving DecidableEq
/-- JS `ToNumber` on a string: trim; empty is 0; a full numeric literal is
its value; anything else is `NaN`. -/
def jsToNumber (s : String) : JsNum :=
  if jsTrim s = "" then .val 0
  else
    match parseFullNumber (jsTrim s) with
    | some q => .val q
    | none => .nan
/-- The clamp `Math.max(0, x)`, NaN-propagating. -/
def jsMaxZero : JsNum → JsNum
  | .nan => .nan
  | .val q => .val (max 0 q)
/-- The clamp `x !== undefined ? Math.max(0, x) : undefined` from
`createItem`, as it acts on the raw string fields an import-all draft
carries. -/
def clampRawNumeric (x : Option String) : Option JsNum :=
  x.map fun s => jsMaxZero (jsToNumber s)
theorem alookup_aset {κ α : Type} [DecidableEq κ] (l : List (κ × α)) (k k2 : κ) (v : α) :
    alookup (aset l k v) k2 = if k2 = k then some v else alookup l k2 := by
  induction l with
  | nil =>
    by_cases h : k2 = k
    · subst h; simp [aset, alookup]
    · have hb : ¬ k = k2 := fun hh => h hh.symm
      simp [aset, alookup, h, hb]
  | cons p t ih =>
    obtain ⟨k0, v0⟩ := p
    by_cases h0 : k0 = k
    · subst h0
      by_cases h2 : k2 = k0
      · subst h2; simp [aset, alookup]
      · have h2b : ¬ k0 = k2 := fun hh => h2 hh.symm
        simp [aset, alookup, h2, h2b]
    · by_cases h2 : k2 = k0
      · subst h2
        have hb : ¬ k2 = k := fun hh => h0 hh
        simp [aset, alookup, h0, hb]
      · have h2b : ¬ k0 = k2 := fun hh => h2 hh.symm
        simp [aset, alookup, h0, h2b, ih]
theorem alookup_adel {κ α : Type} [DecidableEq κ] (l : List (κ × α)) (k k2 : κ) :
    alookup (adel l k) k2 = if k2 = k then none else alookup l k2 := by
  induction l with
  | nil => simp [adel, alookup]
  | cons p t ih =>
    obtain ⟨k0, v0⟩ := p
    by_cases h0 : k0 = k
    · subst h0
      rw [show adel ((k0, v0) :: t) k0 = adel t k0 from by simp [adel], ih]
      by_cases h2 : k2 = k0
      · simp [h2]
      · have h2b : ¬ k0 = k2 := fun hh => h2 hh.symm
        simp [alookup, h2, h2b]
    · rw [show adel ((k0, v0) :: t) k = (k0, v0) :: adel t k from by simp [adel, h0]]
      by_cases h2 : k2 = k0
      · have hne : ¬ k2 = k := fun hh => h0 (h2.symm.trans hh)
        have h2b : k0 = k2 := h2.symm
        simp [alookup, h2b, hne]
      · have h2b : ¬ k0 = k2 := fun hh => h2 hh.symm
        simp [alookup, h2b, ih]
theorem mem_aset {κ α : Type} [DecidableEq κ] {l : List (κ × α)} {k : κ} {v : α} :
    ∀ p ∈ aset l k v, p = (k, v) ∨ p ∈ l := by
  induction l with
  | nil => intro p hp; simp [aset] at hp; exact Or.inl hp
  | cons q t ih =>
    obtain ⟨k0, v0⟩ := q
    intro p hp
    by_cases h0 : k0 = k
    · simp [aset, h0] at hp
      rcases hp with h | h
      · exact Or.inl (by simp [h])
      · exact Or.inr (by simp [h])
    · simp [aset, h0] at hp
      rcases hp with h | h
      · exact Or.inr (by simp [h])
      · rcases ih p h with h2 | h2
        · exact Or.inl h2
        · exact Or.inr (by simp [h2])
theorem mem_adel {κ α : Type} [DecidableEq κ] {l : List (κ × α)} {k : κ} :
    ∀ p ∈ adel l k, p ∈ l := by
  induction l with
  | nil => intro p hp; simp [adel] at hp
  | cons q t ih =>
    obtain ⟨k0, v0⟩ := q
    intro p hp
    by_cases h0 : k0 = k <;> simp [adel, h0] at hp
    · exact List.mem_cons_of_mem _ (ih p hp)
    · rcases hp with h | h
      · simp [h]
      · exact List.mem_cons_of_mem _ (ih p h)
theorem alookup_mem {κ α : Type} [DecidableEq κ] {l : List (κ × α)} {k : κ} {v : α}
    (h : alookup l k = some v) : (k, v) ∈ l := by
  induction l with
  | nil => simp [alookup] at h
  | cons q t ih =>
    obtain ⟨k0, v0⟩ := q
    by_cases h0 : k0 = k
    · subst h0
      simp [alookup] at h
      simp [h]
    · simp [alookup, h0] at h
      exact List.mem_cons_of_mem _ (ih h)
/-! ## Decimal digits of `Nat.repr` (needed for the location round-trip) -/
theorem digitChar_isDigit : ∀ n : ℕ, n < 10 → (Nat.digitChar n).isDigit = true := by decide
theorem toDigitsCore_digits :
    ∀ (f n : ℕ) (ds : List Char), (∀ c ∈ ds, c.isDigit = true) →
      ∀ c ∈ Nat.toDigitsCore 10 f n ds, c.isDigit = true := by
  intro f
  induction f with
  | zero => intro n ds hds; simpa [Nat.toDigitsCore] using hds
  | succ f ih =>
    intro n ds hds c hc
    simp only [Nat.toDigitsCore] at hc
    by_cases h : n / 10 = 0
    · simp only [h, if_pos rfl] at hc
      rcases List.mem_cons.mp hc with h1 | h1
      · subst h1; exact digitChar_isDigit _ (Nat.mod_lt _ (by norm_num))
      · exact hds c h1
    · simp only [h, if_neg h] at hc
      refine ih (n / 10) (Nat.digitChar (n % 10) :: ds) ?_ c hc
      intro c2 hc2
      rcases List.mem_cons.mp hc2 with h2 | h2
      · subst h2; exact digitChar_isDigit _ (Nat.mod_lt _ (by norm_num))
      · exact hds c2 h2
theorem toDigitsCore_length :
    ∀ (f n : ℕ) (ds : List Char), ds.length ≤ (Nat.toDigitsCore 10 f n ds).length := by
  intro f
  induction f with
  | zero => intro n ds; simp [Nat.toDigitsCore]
  | succ f ih =>
    intro n ds
    simp only [Nat.toDigitsCore]
    by_cases h : n / 10 = 0
    · simp [h]
    · simp only [h, if_neg h]
      calc ds.length ≤ (Nat.digitChar (n % 10) :: ds).length := by simp
        _ ≤ _ := ih (n / 10) _
theorem repr_data_digits (n : ℕ) : ∀ c ∈ (Nat.repr n).data, c.isDigit = true := by
  intro c hc
  have : (Nat.repr n).data = Nat.toDigits 10 n := by
    simp [Nat.repr, List.asString]
  rw [this] at hc
  exact toDigitsCore_digits (n + 1) n [] (by intro c h; simp at h) c hc
theorem repr_data_ne_nil (n : ℕ) : (Nat.repr n).data ≠ [] := by
  have hdata : (Nat.repr n).data = Nat.toDigits 10 n := by
    simp [Nat.repr, List.asString]
  rw [hdata]
  show Nat.toDigitsCore 10 (n + 1) n [] ≠ []
  by_cases h : n / 10 = 0
  · simp [Nat.toDigitsCore, h]
  · simp only [Nat.toDigitsCore, h, if_false]
    intro hEq
    have hlen := toDigitsCore_length n (n / 10) [Nat.digitChar (n % 10)]
    rw [hEq] at hlen
    simp at hlen
theorem takeWhile_all_append {p : Char → Bool} :
    ∀ (l1 l2 : List Char), (∀ c ∈ l1, p c = true) →
      (∀ b, l2.head? = some b → p b = false) →
      (l1 ++ l2).takeWhile p = l1 := by
  intro l1
  induction l1 with
  | nil =>
    intro l2 _ h2
    cases l2 with
    | nil => simp
    | cons b t =>
      have hb : p b = false := h2 b rfl
      simp [List.takeWhile_cons, hb]
  | cons a t ih =>
    intro l2 h1 h2
    have ha : p a = true := h1 a (by simp)
    have ht := ih l2 (fun c hc => h1 c (by simp [hc])) h2
    simp [List.takeWhile_cons, ha, ht]
/-- For every `n`, the trailing-digit extraction recovers `toString n` from a
tag such as `"cab" ++ toString n` (the tag ends in a non-digit). -/
theorem extractLocationNumber_tag (tag : String) (n : ℕ)
    (h : ∀ b, tag.data.reverse.head? = some b → b.isDigit = false) :
    extractLocationNumber (tag ++ Nat.repr n) = Nat.repr n := by
  have hdata : (tag ++ Nat.repr n).data = tag.data ++ (Nat.repr n).data := rfl
  have hrev : (tag.data ++ (Nat.repr n).data).reverse
      = (Nat.repr n).data.reverse ++ tag.data.reverse := by
    simp
  have htk : ((Nat.repr n).data.reverse ++ tag.data.reverse).takeWhile Char.isDigit
      = (Nat.repr n).data.reverse := by
    refine takeWhile_all_append _ _ ?_ h
    intro c hc
    exact repr_data_digits n c (List.mem_reverse.mp hc)
  unfold extractLocationNumber
  rw [hdata, hrev, htk]
  simp only [List.reverse_reverse]
  rw [if_neg]
  simpa [List.isEmpty_iff] using repr_data_ne_nil n
/-- Round-trip through the 3-element array encoding, for every `ℕ` triple. -/
theorem parseLocation_buildLocationArray (c r k : ℕ) :
    parseLocation (.arr (buildLocationArray c r k))
      = some { cabinet := toString c, row := toString r, col := toString k } := by
  have hc : extractLocationNumber ("cab" ++ Nat.repr c) = Nat.repr c :=
    extractLocationNumber_tag "cab" c (by decide)
  have hr : extractLocationNumber ("row" ++ Nat.repr r) = Nat.repr r :=
    extractLocationNumber_tag "row" r (by decide)
  have hk : extractLocationNumber ("col" ++ Nat.repr k) = Nat.repr k :=
    extractLocationNumber_tag "col" k (by decide)
  have hts : ∀ m : ℕ, (toString m : String) = Nat.repr m := fun _ => rfl
  rw [show parseLocation (.arr (buildLocationArray c r k))
      = some { cabinet := extractLocationNumber ("cab" ++ toString c)
               row := extractLocationNumber ("row" ++ toString r)
               col := extractLocationNumber ("col" ++ toString k) } from rfl]
  rw [hts c, hts r, hts k, hc, hr, hk]
theorem onHandOk_getD {o : Option ℚ} (h : onHandOk o) : 0 ≤ o.getD 0 := by
  cases o with
  | none => simp
  | some q => simpa using h q rfl
theorem aset_forall {κ α : Type} [DecidableEq κ] {P : κ × α → Prop}
    {l : List (κ × α)} {k : κ} {v : α}
    (hl : ∀ p ∈ l, P p) (hv : P (k, v)) : ∀ p ∈ aset l k v, P p := by
  intro p hp
  rcases mem_aset p hp with h | h
  · rw [h]; exact hv
  · exact hl p h
theorem checkoutItem_preserves_inv {uid itemId : String} {qty : ℚ} {now : ℕ}
    {st st2 : DBState} (hInv : InvNonNeg st)
    (h : checkoutItem uid itemId qty now st = .ok st2) : InvNonNeg st2 := by
  unfold checkoutItem at h
  by_cases h0 : qty ≤ 0
  · simp [h0] at h
  · rw [if_neg h0] at h
    cases hitem : alookup st.items itemId with
    | none => rw [hitem] at h; cases h
    | some itemDoc =>
      rw [hitem] at h
      by_cases hlt : itemDoc.on_hand.getD 0 < qty
      · simp [hlt] at h
      · simp only [hlt, if_false] at h
        have hst2 : st2 =
            { st with
              items := aset st.items itemId
                { itemDoc with on_hand := some (itemDoc.on_hand.getD 0 - qty) }
              ledgers :=
                match alookup st.ledgers (uid, itemId) with
                | some entry =>
                  aset st.ledgers (uid, itemId)
                    { entry with qty := entry.qty + qty, updatedAt := now }
                | none =>
                  aset st.ledgers (uid, itemId)
                    { itemId := itemId, qty := qty, updatedAt := now } } := by
          cases hl : alookup st.ledgers (uid, itemId) <;> rw [hl] at h <;>
            simpa [hl] using h.symm
        rw [hst2]
        refine aset_forall hInv ?_
        intro q hq
        cases hq
        have : qty ≤ itemDoc.on_hand.getD 0 := not_lt.mp hlt
        linarith
theorem returnItem_preserves_inv {uid itemId : String} {qty : ℚ} {now : ℕ}
    {st st2 : DBState} (hInv : InvNonNeg st)
    (h : returnItem uid itemId qty now st = .ok st2) : InvNonNeg st2 := by
  unfold returnItem at h
  by_cases h0 : qty ≤ 0
  · simp [h0] at h
  · rw [if_neg h0] at h
    cases hledge : alookup st.ledgers (uid, itemId) with
    | none => rw [hledge] at h; cases h
    | some entry =>
      rw [hledge] at h
      by_cases hlt : entry.qty < qty
      · simp [hlt] at h
      · simp only [hlt, if_false] at h
        cases hitem : alookup st.items itemId with
        | none => rw [hitem] at h; cases h
        | some itemDoc =>
          rw [hitem] at h
          have hst2 : st2 =
              { st with
                items := aset st.items itemId
                  { itemDoc with on_hand := some (itemDoc.on_hand.getD 0 + qty) }
                ledgers :=
                  if qty = entry.qty then adel st.ledgers (uid, itemId)
                  else aset st.ledgers (uid, itemId)
                    { entry with qty := entry.qty - qty, updatedAt := now } } := by
            simpa using h.symm
          rw [hst2]
          refine aset_forall hInv ?_
          intro q hq
          cases hq
          have hdoc : 0 ≤ itemDoc.on_hand.getD 0 :=
            onHandOk_getD (hInv _ (alookup_mem hitem))
          have hqpos : 0 < qty := not_le.mp h0
          linarith
theorem createItem_preserves_inv {draft : ItemDraft} {st : DBState}
    {rec : ItemRec} {st2 : DBState} (hInv : InvNonNeg st)
    (h : createItem draft st = .ok (rec, st2)) : InvNonNeg st2 := by
  unfold createItem at h
  by_cases hname : jsTrim draft.name = ""
  · simp [hname] at h
  · rw [if_neg hname] at h
    have hst2 : st2 =
        { getNextItemCount st |>.2 with
          items := aset (getNextItemCount st).2.items
            (buildItemDocId (validatedDraftDoc draft).name (getNextItemCount st).1)
            (validatedDraftDoc draft) } := by
      simpa using congrArg (fun p => p.2) (Except.ok.inj h).symm
    rw [hst2]
    refine aset_forall ?_ ?_
    · intro p hp; exact hInv p hp
    · intro q hq
      simp only [validatedDraftDoc] at hq
      rcases Option.map_eq_some'.mp hq with ⟨a, _, ha2⟩
      rw [← ha2]
      exact le_max_left 0 a
theorem updateItem_preserves_inv {id : String} {patch : ItemPatch}
    {st st2 : DBState} (hInv : InvNonNeg st)
    (h : updateItem id patch st = .ok st2) : InvNonNeg st2 := by
  unfold updateItem at h
  by_cases hname : patchNameBlank patch
  · simp [hname] at h
  · rw [if_neg (by simp [hname])] at h
    cases hitem : alookup st.items id with
    | none => rw [hitem] at h; cases h
    | some doc =>
      rw [hitem] at h
      have hst2 : st2 = { st with items := aset st.items id (applyPatch doc patch) } := by
        simpa using h.symm
      rw [hst2]
      refine aset_forall hInv ?_
      intro q hq
      simp only [applyPatch] at hq
      cases hp : patch.on_hand with
      | some v =>
        rw [hp] at hq
        cases hq
        exact le_max_left 0 v
      | none =>
        rw [hp] at hq
        exact hInv _ (alookup_mem hitem) q hq
theorem applyOp_preserves_inv {st : DBState} {op : Op} (hInv : InvNonNeg st) :
    InvNonNeg (applyOp st op) := by
  cases op with
  | checkout uid itemId qty now =>
    simp only [applyOp]
    cases h : checkoutItem uid itemId qty now st with
    | ok st2 => exact checkoutItem_preserves_inv hInv h
    | error e => exact hInv
  | ret uid itemId qty now =>
    simp only [applyOp]
    cases h : returnItem uid itemId qty now st with
    | ok st2 => exact returnItem_preserves_inv hInv h
    | error e => exact hInv
  | create draft =>
    simp only [applyOp]
    cases h : createItem draft st with
    | ok r => exact createItem_preserves_inv hInv (by rw [h])
    | error e => exact hInv
  | update id patch =>
    simp only [applyOp]
    cases h : updateItem id patch st with
    | ok st2 => exact updateItem_preserves_inv hInv h
    | error e => exact hInv
/-! ## Claims -/
/-- C1: for every sequence of checkout, return, create and update operations
run from a state whose items all satisfy the stock invariant, every committed
state keeps `on_hand`, whenever present, nonnegative: `checkoutItem` only
decrements after verifying `on_hand >= qty` in the transaction, `returnItem`
only increments, and `createItem`/`updateItem` clamp supplied `on_hand` to at
least 0. -/
theorem stock_on_hand_never_negative (ops : List Op) (st0 : DBState)
    (h0 : InvNonNeg st0) : InvNonNeg (runOps st0 ops) := by
  induction ops generalizing st0 with
  | nil => exact h0
  | cons op t ih => exact ih (applyOp st0 op) (applyOp_preserves_inv h0)
theorem stock_on_hand_never_negative_witness :
    InvNonNeg dbEmpty ∧ InvNonNeg (runOps dbEmpty opsC1) :=
  ⟨by decide, stock_on_hand_never_negative opsC1 dbEmpty (by decide)⟩
/-- C2: when the item exists and its transactional `on_hand` (with its C1
invariant `0 ≤ on_hand`) is strictly below `qty`, `checkoutItem` fails with
the insufficient-stock error and the failed transaction writes nothing: the
item and every ledger are untouched. -/
theorem checkout_insufficient_stock_atomic (uid itemId : String) (qty : ℚ)
    (now : ℕ) (st : DBState) (doc : ItemDoc)
    (hitem : alookup st.items itemId = some doc)
    (hnonneg : 0 ≤ doc.on_hand.getD 0)
    (hlt : doc.on_hand.getD 0 < qty) :
    checkoutItem uid itemId qty now st = .error (.insufficientStock (doc.on_hand.getD 0))
      ∧ applyOp st (.checkout uid itemId qty now) = st := by
  have hq : ¬ qty ≤ 0 := not_le.mpr (lt_of_le_of_lt hnonneg hlt)
  have h1 : checkoutItem uid itemId qty now st
      = .error (.insufficientStock (doc.on_hand.getD 0)) := by
    unfold checkoutItem
    rw [if_neg hq, hitem]
    simp [hlt]
  exact ⟨h1, by simp [applyOp, h1]⟩
theorem checkout_insufficient_stock_atomic_witness :
    checkoutItem "u1" "widget1" 15 0 stC2 = .error (.insufficientStock 10)
      ∧ applyOp stC2 (.checkout "u1" "widget1" 15 0) = stC2 :=
  checkout_insufficient_stock_atomic "u1" "widget1" 15 0 stC2 (itemDocEx (some 10))
    (by decide) (by decide) (by decide)
/-- C3: `returnItem` rejects `qty ≤ 0`; fails with the no-active-checkout
error (writing nothing) when no ledger entry exists; with a ledger entry of
quantity `L` and `0 < qty ≤ L` it increments the item's `on_hand` by `qty`,
deleting the ledger entry exactly when `qty = L` and decrementing it by `qty`
otherwise; and with `qty > L` it fails with the excess-return error, writing
nothing. -/
theorem return_state_machine (uid itemId : String) (qty : ℚ) (now : ℕ)
    (st : DBState) :
    (qty ≤ 0 → returnItem uid itemId qty now st = .error .qtyNotPositive)
  ∧ (0 < qty → alookup st.ledgers (uid, itemId) = none →
      returnItem uid itemId qty now st = .error .noActiveCheckout
        ∧ applyOp st (.ret uid itemId qty now) = st)
  ∧ (∀ entry doc,
      alookup st.ledgers (uid, itemId) = some entry →
      alookup st.items itemId = some doc →
      0 < qty → qty ≤ entry.qty →
      returnItem uid itemId qty now st = .ok (applyOp st (.ret uid itemId qty now))
        ∧ alookup (applyOp st (.ret uid itemId qty now)).items itemId
            = some { doc with on_hand := some (doc.on_hand.getD 0 + qty) }
        ∧ (qty = entry.qty →
            alookup (applyOp st (.ret uid itemId qty now)).ledgers (uid, itemId) = none)
        ∧ (qty ≠ entry.qty →
            alookup (applyOp st (.ret uid itemId qty now)).ledgers (uid, itemId)
              = some { entry with qty := entry.qty - qty, updatedAt := now }))
  ∧ (∀ entry,
      alookup st.ledgers (uid, itemId) = some entry →
      0 < qty → entry.qty < qty →
      returnItem uid itemId qty now st = .error (.excessReturn entry.qty)
        ∧ applyOp st (.ret uid itemId qty now) = st) := by
  refine ⟨?_, ?_, ?_, ?_⟩
  · intro hq
    unfold returnItem
    rw [if_pos hq]
  · intro hq hledge
    have h1 : returnItem uid itemId qty now st = .error .noActiveCheckout := by
      unfold returnItem
      rw [if_neg (not_le.mpr hq), hledge]
    exact ⟨h1, by simp [applyOp, h1]⟩
  · intro entry doc hledge hitem hq hle
    have hq0 : ¬ qty ≤ 0 := not_le.mpr hq
    have hlt : ¬ entry.qty < qty := not_lt.mpr hle
    have hret : returnItem uid itemId qty now st = .ok
        { st with
          items := aset st.items itemId
            { doc with on_hand := some (doc.on_hand.getD 0 + qty) }
          ledgers :=
            if qty = entry.qty then adel st.ledgers (uid, itemId)
            else aset st.ledgers (uid, itemId)
              { entry with qty := entry.qty - qty, updatedAt := now } } := by
      unfold returnItem
      rw [if_neg hq0, hledge]
      simp only [hlt, if_false]
      rw [hitem]
    have hApply : applyOp st (.ret uid itemId qty now) =
        { st with
          items := aset st.items itemId
            { doc with on_hand := some (doc.on_hand.getD 0 + qty) }
          ledgers :=
            if qty = entry.qty then adel st.ledgers (uid, itemId)
            else aset st.ledgers (uid, itemId)
              { entry with qty := entry.qty - qty, updatedAt := now } } := by
      simp [applyOp, hret]
    refine ⟨by rw [hApply, hret], ?_, ?_, ?_⟩
    · rw [hApply]
      simp [alookup_aset]
    · intro he
      rw [hApply]
      simp only [if_pos he]
      simp [alookup_adel]
    · intro hne
      rw [hApply]
      simp only [if_neg hne]
      simp [alookup_aset]
  · intro entry hledge hq hlt
    have h1 : returnItem uid itemId qty now st = .error (.excessReturn entry.qty) := by
      unfold returnItem
      rw [if_neg (not_le.mpr hq), hledge]
      simp [hlt]
    exact ⟨h1, by simp [applyOp, h1]⟩
theorem return_state_machine_witness :
    returnItem "u1" "widget1" 2 7 stC3 = .ok (applyOp stC3 (.ret "u1" "widget1" 2 7))
      ∧ alookup (applyOp stC3 (.ret "u1" "widget1" 2 7)).items "widget1"
          = some { itemDocEx (some 3) with on_hand := some 5 }
      ∧ alookup (applyOp stC3 (.ret "u1" "widget1" 2 7)).ledgers ("u1", "widget1")
          = some { itemId := "widget1", qty := 3, updatedAt := 7 } := by
  have h := (return_state_machine "u1" "widget1" 2 7 stC3).2.2.1
    { itemId := "widget1", qty := 5, updatedAt := 0 } (itemDocEx (some 3))
    (by decide) (by decide) (by decide) (by decide)
  refine ⟨h.1, h.2.1.trans ?_, (h.2.2.2 (by norm_num)).trans ?_⟩
  · norm_num [itemDocEx]
  · norm_num
/-- C5: `getNextItemCount` reads the counter (0 when the document or field is
absent), persists exactly `current + 1` and returns it; the returned suffix
strictly exceeds the prior counter value and, when the prior value is
nonnegative (as every reachable counter is), the suffix is at least 1. -/
theorem nextSuffix_allocator (st : DBState) :
    (getNextItemCount st).1 = st.counter.getD 0 + 1
  ∧ (getNextItemCount st).2.counter = some (st.counter.getD 0 + 1)
  ∧ st.counter.getD 0 < (getNextItemCount st).1
  ∧ (0 ≤ st.counter.getD 0 → 1 ≤ (getNextItemCount st).1) := by
  refine ⟨rfl, rfl, ?_, ?_⟩
  · have h : (getNextItemCount st).1 = st.counter.getD 0 + 1 := rfl
    omega
  · intro h0
    have h : (getNextItemCount st).1 = st.counter.getD 0 + 1 := rfl
    omega
theorem nextSuffix_allocator_witness :
    (0 : ℤ) ≤ stC2.counter.getD 0 ∧ 1 ≤ (getNextItemCount stC2).1 :=
  ⟨by decide, (nextSuffix_allocator stC2).2.2.2 (by decide)⟩
/-- C10: for an existing item document whose `on_hand` field is absent and
any `qty > 0`, `checkoutItem` treats the missing field as 0 and fails with
the insufficient-stock error, writing nothing. -/
theorem checkout_missing_on_hand_rejected (uid itemId : String) (qty : ℚ)
    (now : ℕ) (st : DBState) (doc : ItemDoc)
    (hitem : alookup st.items itemId = some doc)
    (hnone : doc.on_hand = none)
    (hq : 0 < qty) :
    checkoutItem uid itemId qty now st = .error (.insufficientStock 0)
      ∧ applyOp st (.checkout uid itemId qty now) = st := by
  have h1 : checkoutItem uid itemId qty now st = .error (.insufficientStock 0) := by
    unfold checkoutItem
    rw [if_neg (not_le.mpr hq), hitem]
    simp [hnone, hq]
  exact ⟨h1, by simp [applyOp, h1]⟩
theorem checkout_missing_on_hand_rejected_witness :
    checkoutItem "u1" "widget1" 3 0 stC10 = .error (.insufficientStock 0)
      ∧ applyOp stC10 (.checkout "u1" "widget1" 3 0) = stC10 :=
  checkout_missing_on_hand_rejected "u1" "widget1" 3 0 stC10 (itemDocEx none)
    (by decide) (by decide) (by decide)
/-- C4: for every in-bounds triple, decoding the encoded 3-element array
returns exactly the encoded coordinates (as their decimal strings, the
representation `parseLocation` yields) and never `null`. -/
theorem location_roundtrip (c r k : ℕ)
    (hc1 : 1 ≤ c) (hc2 : c ≤ 5) (hr1 : 1 ≤ r) (hr2 : r ≤ 6)
    (hk1 : 1 ≤ k) (hk2 : k ≤ 4) :
    parseLocation (.arr (buildLocationArray c r k))
      = some { cabinet := toString c, row := toString r, col := toString k } :=
  parseLocation_buildLocationArray c r k
theorem location_roundtrip_witness :
    ((1:ℕ) ≤ 2 ∧ (2:ℕ) ≤ 5 ∧ (1:ℕ) ≤ 3 ∧ (3:ℕ) ≤ 6 ∧ (1:ℕ) ≤ 4 ∧ (4:ℕ) ≤ 4)
      ∧ parseLocation (.arr (buildLocationArray 2 3 4))
          = some { cabinet := "2", row := "3", col := "4" } :=
  ⟨by decide,
    (location_roundtrip 2 3 4 (by decide) (by decide) (by decide) (by decide)
      (by decide) (by decide)).trans (by decide)⟩
/-- C9 counterexample: with every coordinate out of range, the encode
operation still returns a location tuple (which even decodes back); there is
no out-of-range failure anywhere in `buildLocationArray`. -/
theorem encode_out_of_range_counterexample :
    buildLocationArray 0 9 7 = ["cab0", "row9", "col7"]
      ∧ parseLocation (.arr (buildLocationArray 0 9 7))
          = some { cabinet := "0", row := "9", col := "7" } :=
  ⟨by decide, by decide⟩
/-- C9 amended: `buildLocationArray` performs no range validation at all:
for every cabinet/row/column, in range or not, it totally returns the
3-element tuple, which decodes back to the same coordinates; bounds are
enforced only by the UI dropdowns. -/
theorem encode_total_no_range_check (c r k : ℕ)
    (hout : ¬(1 ≤ c ∧ c ≤ 5 ∧ 1 ≤ r ∧ r ≤ 6 ∧ 1 ≤ k ∧ k ≤ 4)) :
    (buildLocationArray c r k).length = 3
      ∧ parseLocation (.arr (buildLocationArray c r k))
          = some { cabinet := toString c, row := toString r, col := toString k } :=
  ⟨rfl, parseLocation_buildLocationArray c r k⟩
theorem encode_total_no_range_check_witness :
    ¬((1:ℕ) ≤ 0 ∧ (0:ℕ) ≤ 5 ∧ (1:ℕ) ≤ 9 ∧ (9:ℕ) ≤ 6 ∧ (1:ℕ) ≤ 7 ∧ (7:ℕ) ≤ 4)
      ∧ (buildLocationArray 0 9 7).length = 3 :=
  ⟨by decide, (encode_total_no_range_check 0 9 7 (by decide)).1⟩
/-! ## The id builder ignores surrounding whitespace

`createItem` trims the name before building the doc id; since whitespace is
stripped by `[^a-z0-9]` anyway, the id from the trimmed name equals the id
from the raw name. -/
theorem filter_map_dropWhile {p q : Char → Bool} {f : Char → Char}
    (hq : ∀ c, q c = true → p (f c) = false) :
    ∀ l : List Char, ((l.dropWhile q).map f).filter p = (l.map f).filter p := by
  intro l
  induction l with
  | nil => simp
  | cons a t ih =>
    by_cases ha : q a = true
    · rw [List.dropWhile_cons_of_pos ha, ih]
      simp [List.filter_cons, hq a ha]
    · rw [List.dropWhile_cons_of_neg (by simp [ha])]
theorem ws_not_alnum :
    ∀ ch : Char, ch.isWhitespace = true → keepAlnum (Char.toLower ch) = false := by
  intro ch h
  simp only [Char.isWhitespace, Bool.or_eq_true, decide_eq_true_eq] at h
  rcases h with ((h | h) | h) | h <;> subst h <;> decide
theorem strip_jsTrim (s : String) :
    ((jsTrim s).data.map Char.toLower).filter keepAlnum
      = (s.data.map Char.toLower).filter keepAlnum := by
  have key := @filter_map_dropWhile keepAlnum Char.isWhitespace Char.toLower ws_not_alnum
  have h1 : (jsTrim s).data
      = ((s.data.dropWhile Char.isWhitespace).reverse.dropWhile Char.isWhitespace).reverse :=
    rfl
  rw [h1, List.map_reverse, List.filter_reverse, key, ← List.filter_reverse,
    ← List.map_reverse, List.reverse_reverse, key]
theorem buildItemDocId_jsTrim (s : String) (c : ℤ) :
    buildItemDocId (jsTrim s) c = buildItemDocId s c := by
  unfold buildItemDocId
  rw [strip_jsTrim]
/-- C6: `createItem` fails exactly when the draft name trims to empty;
otherwise the materialized item clamps each provided numeric field at 0
(leaving absent ones absent), normalizes missing optional strings to `""`,
gets the id built from the lower-cased name stripped to `[a-z0-9]` plus the
allocated suffix, and is persisted under that id. -/
theorem create_validates_and_normalizes (draft : ItemDraft) (st : DBState) :
    (exceptIsOk (createItem draft st) = true ↔ jsTrim draft.name ≠ "")
  ∧ (∀ rec st2, createItem draft st = .ok (rec, st2) →
      rec.doc.on_hand = draft.on_hand.map (fun q => max 0 q)
    ∧ rec.doc.quantity = draft.quantity.map (fun q => max 0 q)
    ∧ rec.doc.retail_price = draft.retail_price.map (fun q => max 0 q)
    ∧ rec.doc.description = draft.description.getD ""
    ∧ rec.doc.supplier = draft.supplier.getD ""
    ∧ rec.doc.count_date = draft.count_date.getD ""
    ∧ rec.doc.count_person = draft.count_person.getD ""
    ∧ rec.doc.delivery_date = draft.delivery_date.getD ""
    ∧ rec.id = buildItemDocId draft.name (st.counter.getD 0 + 1)
    ∧ alookup st2.items rec.id = some rec.doc) := by
  constructor
  · unfold createItem
    by_cases h : jsTrim draft.name = "" <;> simp [h, exceptIsOk]
  · intro rec st2 h
    unfold createItem at h
    by_cases hname : jsTrim draft.name = ""
    · simp [hname] at h
    · rw [if_neg hname] at h
      have h2 := Except.ok.inj h
      have hrec := congrArg Prod.fst h2
      have hst2 := congrArg Prod.snd h2
      simp only at hrec hst2
      rw [← hrec, ← hst2]
      refine ⟨rfl, rfl, rfl, rfl, rfl, rfl, rfl, rfl, ?_, ?_⟩
      · exact buildItemDocId_jsTrim draft.name (st.counter.getD 0 + 1)
      · simp [alookup_aset]
theorem create_validates_and_normalizes_witness :
    createItem draftC6 stC6 = .ok (recC6, stC6b)
      ∧ recC6.doc.on_hand = some 0
      ∧ recC6.id = "redvalve42" := by
  have hok : createItem draftC6 stC6 = .ok (recC6, stC6b) := by decide
  have h := (create_validates_and_normalizes draftC6 stC6).2 recC6 stC6b hok
  exact ⟨hok, h.1.trans (by decide), h.2.2.2.2.2.2.2.2.1.trans (by decide)⟩
theorem nameErr_false_iff (row : CsvRow) :
    nameErr row = false ↔ optTrimOrEmpty row.name ≠ "" := by
  have htrim : jsTrim "" = "" := rfl
  cases hn : row.name with
  | none => simp [nameErr, strTruthy, optTrimOrEmpty, hn]
  | some s =>
    by_cases hs : s = ""
    · subst hs
      simp [nameErr, strTruthy, optTrimOrEmpty, hn, htrim]
    · by_cases ht : jsTrim s = "" <;>
        simp [nameErr, strTruthy, optTrimOrEmpty, hn, hs, ht]
theorem numErr_false_iff (v : Option String) :
    numErr v = false ↔ (numPresent v → parsesNonneg v) := by
  by_cases hp : numPresent v
  · obtain ⟨h1, h2⟩ := hp
    have he : numErr v = negOrNone (parseNumber v) := by
      simp [numErr, h1, h2]
    rw [he]
    cases hq : parseNumber v with
    | none =>
      simp only [negOrNone, parsesNonneg, hq, numPresent]
      simp [h1, h2]
    | some q =>
      by_cases hlt : q < 0
      · simp only [negOrNone, parsesNonneg, hq, numPresent]
        simp [h1, h2, hlt, not_le.mpr hlt]
      · simp only [negOrNone, parsesNonneg, hq, numPresent]
        simp [h1, h2, hlt, not_lt.mp hlt]
  · have he : numErr v = false := by
      rcases v with _ | s
      · simp [numErr, strTruthy]
      · by_cases hs : s = ""
        · simp [numErr, strTruthy, hs]
        · have ht : jsTrim s = "" := by
            by_contra hne
            exact hp ⟨by simp [strTruthy, hs], by simpa using hne⟩
          simp [numErr, ht]
    simp [he, hp]
theorem validateRow_valid_iff (row : CsvRow) :
    (validateRow row).valid = true ↔
      (nameErr row = false ∧ numErr row.on_hand = false
        ∧ numErr row.quantity = false ∧ numErr row.retail_price = false) := by
  unfold validateRow
  cases h1 : nameErr row <;> cases h2 : numErr row.on_hand <;>
    cases h3 : numErr row.quantity <;> cases h4 : numErr row.retail_price <;>
      simp [h1, h2, h3, h4]
theorem parseNumber_neg1 : parseNumber (some "-1") = some (-1) := by
  have h : parseNumber (some "-1") = some (decValue true 1 0 0 0) := rfl
  rw [h]
  norm_num [decValue]
theorem parseNumber_three : parseNumber (some "3") = some 3 := by
  have h : parseNumber (some "3") = some (decValue false 3 0 0 0) := rfl
  rw [h]
  norm_num [decValue]
theorem validateRow_missingName : (validateRow rowMissingName).valid = false := rfl
theorem numErr_neg1 : numErr (some "-1") = true := by
  have h2 : numErr (some "-1") = negOrNone (parseNumber (some "-1")) := rfl
  rw [h2, parseNumber_neg1]
  simp only [negOrNone, decide_eq_true_eq]
  norm_num
theorem validateRow_negOnHand : (validateRow rowNegOnHand).valid = false := by
  cases h : (validateRow rowNegOnHand).valid
  · rfl
  · exfalso
    have h2 := (validateRow_valid_iff rowNegOnHand).mp h
    have h3 : numErr rowNegOnHand.on_hand = true := numErr_neg1
    rw [h2.2.1] at h3
    cases h3
theorem validateRow_fullyValid : (validateRow rowFullyValid).valid = true := by
  rw [validateRow_valid_iff]
  refine ⟨rfl, ?_, rfl, rfl⟩
  have h2 : numErr rowFullyValid.on_hand = negOrNone (parseNumber (some "3")) := rfl
  rw [h2, parseNumber_three]
  simp only [negOrNone, decide_eq_false_iff_not]
  norm_num
/-- C7: a CSV row is classified valid iff its name is non-blank and every
numeric cell that is present parses to a nonnegative number (empty or
missing cells count as absent, not zero and not an error); in particular the
batch of one missing-name row, one `on_hand = -1` row and one fully valid
row yields exactly 1 valid row and 2 error rows. -/
theorem csv_row_classification :
    (∀ row : CsvRow, ((validateRow row).valid = true ↔
      (optTrimOrEmpty row.name ≠ ""
        ∧ (numPresent row.on_hand → parsesNonneg row.on_hand)
        ∧ (numPresent row.quantity → parsesNonneg row.quantity)
        ∧ (numPresent row.retail_price → parsesNonneg row.retail_price))))
  ∧ classifyRows [rowMissingName, rowNegOnHand, rowFullyValid] = (1, 2) := by
  constructor
  · intro row
    rw [validateRow_valid_iff row, nameErr_false_iff row, numErr_false_iff,
      numErr_false_iff, numErr_false_iff]
  · simp [classifyRows, validateRow_missingName, validateRow_negOnHand,
      validateRow_fullyValid]
theorem csv_row_classification_witness :
    (validateRow rowFullyValid).valid = true := by
  refine (csv_row_classification.1 rowFullyValid).mpr ⟨by decide, ?_, ?_, ?_⟩
  · intro _
    show parsesNonneg rowFullyValid.on_hand
    have h : rowFullyValid.on_hand = some "3" := rfl
    rw [h]
    simp only [parsesNonneg, parseNumber_three]
    norm_num
  · intro hp
    exact absurd hp.1 (by decide)
  · intro hp
    exact absurd hp.1 (by decide)
/-- C8 counterexample: the row `{name: "Widget", on_hand: "-1"}` lands in
the error bucket because `on_hand` fails to parse nonnegative, yet its
its import-all draft keeps `on_hand = "-1"` — the field is not dropped — and
`createItem`'s clamp then stores 0 for it. -/
theorem import_all_keeps_raw_counterexample :
    (validateRow rowNegOnHand).valid = false
      ∧ (importAllDraft rowNegOnHand).on_hand = some "-1"
      ∧ clampRawNumeric (importAllDraft rowNegOnHand).on_hand = some (JsNum.val 0) := by
  refine ⟨validateRow_negOnHand, rfl, ?_⟩
  have h1 : clampRawNumeric (importAllDraft rowNegOnHand).on_hand
      = some (jsMaxZero (jsToNumber "-1")) := rfl
  have h2 : jsToNumber "-1" = .val (decValue true 1 0 0 0) := rfl
  have h3 : decValue true 1 0 0 0 = -1 := by norm_num [decValue]
  rw [h1, h2,
    show jsMaxZero (.val (decValue true 1 0 0 0))
      = .val (max 0 (decValue true 1 0 0 0)) from rfl,
    h3, max_eq_left (by norm_num : (-1 : ℚ) ≤ 0)]
/-- C8 amended: `handleImportAll` replaces a missing name with the
placeholder, but passes every numeric field through verbatim as the raw CSV
string (absent only when the CSV column itself was absent); the create-time
clamp then maps empty or negative strings to 0 and non-numeric strings to
`NaN`, rather than dropping the field. -/
theorem import_all_raw_passthrough (r : CsvRow) :
    ((r.name = none ∨ r.name = some "") → (importAllDraft r).name = "Untitled Item")
  ∧ (importAllDraft r).on_hand = r.on_hand
  ∧ (importAllDraft r).quantity = r.quantity
  ∧ (importAllDraft r).retail_price = r.retail_price
  ∧ (∀ s, jsTrim s = "" → clampRawNumeric (some s) = some (JsNum.val 0))
  ∧ (∀ s q, jsTrim s ≠ "" → parseFullNumber (jsTrim s) = some q →
      clampRawNumeric (some s) = some (JsNum.val (max 0 q)))
  ∧ (∀ s, jsTrim s ≠ "" → parseFullNumber (jsTrim s) = none →
      clampRawNumeric (some s) = some JsNum.nan)
  ∧ clampRawNumeric none = none := by
  refine ⟨?_, rfl, rfl, rfl, ?_, ?_, ?_, rfl⟩
  · rintro (h | h) <;> simp [importAllDraft, jsOrString, h]
  · intro s hs
    simp [clampRawNumeric, jsToNumber, hs, jsMaxZero]
  · intro s q hs hq
    simp [clampRawNumeric, jsToNumber, hs, hq, jsMaxZero]
  · intro s hs hq
    simp [clampRawNumeric, jsToNumber, hs, hq, jsMaxZero]
theorem import_all_raw_passthrough_witness :
    (importAllDraft rowMissingName).name = "Untitled Item"
      ∧ (importAllDraft rowNegOnHand).on_hand = some "-1"
      ∧ clampRawNumeric (some "-1") = some (JsNum.val 0)
      ∧ clampRawNumeric (some "abc") = some JsNum.nan := by
  have h0 := (import_all_raw_passthrough rowMissingName).1 (Or.inr rfl)
  have h1 := (import_all_raw_passthrough rowNegOnHand).2.1
  have h2 := (import_all_raw_passthrough rowNegOnHand).2.2.2.2.2.1 "-1" (-1)
    (by decide) (by
      have h : parseFullNumber (jsTrim "-1") = some (decValue true 1 0 0 0) := rfl
      rw [h]
      norm_num [decValue])
  have h3 := (import_all_raw_passthrough rowNegOnHand).2.2.2.2.2.2.1 "abc"
    (by decide) rfl
  refine ⟨h0, h1.trans rfl, h2.trans ?_, h3⟩
  rw [max_eq_left (by norm_num : (-1 : ℚ) ≤ 0)]
end ARI
